import Mathlib

/-!
Verification of the particle-system core of the GO_Examples repository.

Each Go demo is embedded in its own namespace:
* `P0`          — the smoke-and-fire pool demo (src/unnamed/part_000);
* `SmokeDemo`   — the batched smoke demo (src/smoke.main.go);
* `AmazingDemo` — the concert particle show (src/amazing.main.go);
* `Bubbles`     — the 3D depth-sorted bubble demo (src/bubbles.main.go);
* `Kinetic`     — the rigid-body ball pit (second program of src/unnamed/part_001).

Modelling conventions:
* Go float64/float32 values are embedded as exact rationals `ℚ`; the claims
  under study are order/branching/counting claims, not rounding claims.
* Go `int` is embedded as `ℤ`, Go `uint16` casts as `% 65536` on `ℕ`.
* The opaque float math library (math.Sin, math.Cos, math.Pow, math.Pi) is a
  `MathLib` parameter: those primitives are approximations in Go anyway and no
  claim depends on their values.
* Pseudo-random draws (rand.Float64, rand.Intn) are threaded explicitly as
  `Draws` records so spawning stays a pure function of its inputs.
-/

/-- Model of the opaque float math primitives used by the demos. -/
structure MathLib where
  sin : ℚ → ℚ
  cos : ℚ → ℚ
  pow : ℚ → ℚ → ℚ
  pi : ℚ

/-- A trivial instantiation of the math primitives, used to evaluate the
model on concrete inputs. -/
def M0 : MathLib := { sin := fun _ => 0, cos := fun _ => 1, pow := fun _ _ => 0, pi := 0 }

/-- Model of Go image/color.RGBA: four 8-bit channels. -/
structure RGBA where
  R : ℕ
  G : ℕ
  B : ℕ
  A : ℕ
deriving DecidableEq

/-- Model of an ebiten.GeoM affine transform: row one is `(a, b, tx)`,
row two is `(c, d, ty)`. -/
structure GeoM where
  a : ℚ
  b : ℚ
  c : ℚ
  d : ℚ
  tx : ℚ
  ty : ℚ
deriving DecidableEq

/-- The identity transform (zero value of ebiten.GeoM). -/
def GeoM.start : GeoM := ⟨1, 0, 0, 1, 0, 0⟩

/-- GeoM.Apply: apply the affine transform to a point. -/
def GeoM.apply (g : GeoM) (x y : ℚ) : ℚ × ℚ :=
  (g.a * x + g.b * y + g.tx, g.c * x + g.d * y + g.ty)

/-- GeoM.Translate composes a translation after the current transform. -/
def GeoM.translate (g : GeoM) (dx dy : ℚ) : GeoM :=
  { g with tx := g.tx + dx, ty := g.ty + dy }

/-- GeoM.Scale composes a scaling after the current transform. -/
def GeoM.scaleBy (g : GeoM) (sx sy : ℚ) : GeoM :=
  ⟨g.a * sx, g.b * sx, g.c * sy, g.d * sy, g.tx * sx, g.ty * sy⟩

/-- GeoM.Rotate composes a rotation after the current transform. -/
def GeoM.rotate (M : MathLib) (g : GeoM) (theta : ℚ) : GeoM :=
  ⟨M.cos theta * g.a - M.sin theta * g.c,
   M.cos theta * g.b - M.sin theta * g.d,
   M.sin theta * g.a + M.cos theta * g.c,
   M.sin theta * g.b + M.cos theta * g.d,
   M.cos theta * g.tx - M.sin theta * g.ty,
   M.sin theta * g.tx + M.cos theta * g.ty⟩

/-- Model of an ebiten.Vertex: destination position, source texture
coordinates and a premultiplied RGBA color. -/
structure Vertex where
  dstX : ℚ
  dstY : ℚ
  srcX : ℚ
  srcY : ℚ
  colorR : ℚ
  colorG : ℚ
  colorB : ℚ
  colorA : ℚ
deriving DecidableEq

namespace P0

/-- Screen width constant of part_000. -/
def screenWidth : ℚ := 640

/-- Screen height constant of part_000. -/
def screenHeight : ℚ := 480

/-- Pool capacity constant of part_000. -/
def maxParticles : ℕ := 10000

/-- ParticleType of part_000: smoke or fire. -/
inductive ParticleType where
  | TypeSmoke : ParticleType
  | TypeFire : ParticleType
deriving DecidableEq

/-- Particle record of part_000. -/
structure Particle where
  x : ℚ
  y : ℚ
  vx : ℚ
  vy : ℚ
  lifetime : ℤ
  maxLife : ℤ
  baseScale : ℚ
  angle : ℚ
  angularVelocity : ℚ
  col : RGBA
  pType : ParticleType
  active : Bool
deriving DecidableEq

/-- Particle.update of part_000: increment lifetime, deactivate when the
lifetime reaches maxLife, otherwise move, rotate and apply the constant
downward force on vy. -/
def Particle.update (p : Particle) : Particle :=
  if !p.active then p
  else
    let p1 := { p with lifetime := p.lifetime + 1 }
    if p1.lifetime ≥ p1.maxLife then { p1 with active := false }
    else
      { p1 with
        x := p1.x + p1.vx
        y := p1.y + p1.vy
        angle := p1.angle + p1.angularVelocity
        vy := p1.vy + 5 / 100 }

/-- The off-screen test of part_000 Game.Update. -/
def outOfBounds (p : Particle) : Bool :=
  decide (p.x < -100) || decide (p.x > screenWidth + 100) ||
  decide (p.y < -200) || decide (p.y > screenHeight + 200)

/-- One particle step of part_000 Game.Update: update the particle when it
is active, then deactivate it when it lies far off screen. -/
def tickParticle (p : Particle) : Particle :=
  if p.active then
    let q := p.update
    if outOfBounds q then { q with active := false } else q
  else p

/-- Game.allocateParticle of part_000: scan the pool for the first inactive
slot; `none` models the nil return on exhaustion.  The returned index plays
the role of the returned pointer. -/
def allocateParticle : List Particle → Option ℕ
  | [] => none
  | p :: ps => if p.active then (allocateParticle ps).map (· + 1) else some 0

/-- Number of active particles in a pool. -/
def countActive (pool : List Particle) : ℕ :=
  pool.countP (fun p => p.active)

/-- Number of inactive (free) slots in a pool. -/
def countInactive (pool : List Particle) : ℕ :=
  pool.countP (fun p => !p.active)

/-- The inactive particle stored in every slot by NewGame (Go zero value
with active = false). -/
def zeroParticle : Particle :=
  { x := 0, y := 0, vx := 0, vy := 0, lifetime := 0, maxLife := 0,
    baseScale := 0, angle := 0, angularVelocity := 0,
    col := ⟨0, 0, 0, 0⟩, pType := ParticleType.TypeSmoke, active := false }

/-- The pool built by part_000 NewGame: maxParticles inactive slots. -/
def NewGamePool : List Particle := List.replicate maxParticles zeroParticle

/-- The bounded random draws consumed by one call of part_000 newParticle
and the explosion override in spawnExplosion. -/
structure Draws where
  jx : ℚ
  jy : ℚ
  angR : ℚ
  avR : ℚ
  lifeR : ℤ
  dirR : ℚ
  flip : Bool
  speedR : ℚ
  colR : ℕ
  colG : ℕ
  colB : ℕ
  scaleR : ℚ
  blastAngle : ℚ
  blastSpeed : ℚ

/-- newParticle of part_000: common fields, then the per-kind branch. -/
def newParticle (M : MathLib) (emitterX emitterY : ℚ) (pType : ParticleType)
    (d : Draws) : Particle :=
  let base : Particle :=
    { x := emitterX + d.jx * 4 - 2
      y := emitterY + d.jy * 4 - 2
      vx := 0
      vy := 0
      lifetime := 0
      maxLife := 0
      baseScale := 0
      angle := d.angR * 2 * M.pi
      angularVelocity := (d.avR * 2 - 1) * (5 / 100)
      col := ⟨0, 0, 0, 0⟩
      pType := pType
      active := true }
  match pType with
  | ParticleType.TypeSmoke =>
    let angle := d.dirR * M.pi / 3 + M.pi / 2
    let speed := d.speedR * (4 / 10) + 1 / 10
    { base with
      maxLife := d.lifeR + 240
      vx := M.cos angle * speed
      vy := M.sin angle * speed - 1
      col := ⟨0xc0 + d.colR, 0xc0 + d.colG, 0xc0 + d.colB, 0xff⟩
      baseScale := d.scaleR * (1 / 10) + 3 / 10 }
  | ParticleType.TypeFire =>
    let ang0 := d.dirR * M.pi / 4
    let ang1 := if d.flip then -ang0 else ang0
    let ang := ang1 + M.pi / 2
    let speed := d.speedR * (3 / 2) + 1
    { base with
      maxLife := d.lifeR + 45
      vx := M.cos ang * speed * (1 / 2)
      vy := M.sin ang * speed * 2
      col := ⟨0xff, 0x90, 0x00, 0xff⟩
      baseScale := d.scaleR * (5 / 100) + 15 / 100 }

/-- The particle written by one iteration of part_000 spawnExplosion: a fire
particle whose velocity is overwritten by the radial blast velocity. -/
def blastParticle (M : MathLib) (x y : ℚ) (d : Draws) : Particle :=
  let p := newParticle M x y ParticleType.TypeFire d
  { p with
    vx := M.cos d.blastAngle * d.blastSpeed
    vy := M.sin d.blastAngle * d.blastSpeed }

/-- The burst loop of part_000 spawnExplosion: allocate a slot, overwrite it,
stop early as soon as the pool is exhausted. -/
def spawnLoop (mk : ℕ → Particle) : ℕ → List Particle → List Particle
  | 0, pool => pool
  | n + 1, pool =>
    match allocateParticle pool with
    | none => pool
    | some i => spawnLoop mk n (pool.set i (mk n))

/-- Game.spawnExplosion of part_000: a burst of 500 fire particles. -/
def spawnExplosion (M : MathLib) (x y : ℚ) (ds : ℕ → Draws)
    (pool : List Particle) : List Particle :=
  spawnLoop (fun k => blastParticle M x y (ds k)) 500 pool

lemma length_eq_countActive_add_countInactive (l : List Particle) :
    l.length = countActive l + countInactive l := by
  induction l with
  | nil => simp [countActive, countInactive]
  | cons p ps ih =>
    simp only [countActive, countInactive, List.countP_cons, List.length_cons] at *
    cases hp : p.active <;> simp [hp] <;> omega

lemma countActive_le_length (l : List Particle) : countActive l ≤ l.length :=
  List.countP_le_length _

lemma allocateParticle_eq_none_iff (l : List Particle) :
    allocateParticle l = none ↔ countInactive l = 0 := by
  induction l with
  | nil => simp [allocateParticle, countInactive]
  | cons p ps ih =>
    cases hp : p.active with
    | false => simp [allocateParticle, countInactive, List.countP_cons, hp]
    | true =>
      have hc : countInactive (p :: ps) = countInactive ps := by
        simp [countInactive, List.countP_cons, hp]
      rw [hc, ← ih]
      simp [allocateParticle, hp, Option.map_eq_none']

lemma allocateParticle_eq_some (l : List Particle) (i : ℕ)
    (h : allocateParticle l = some i) :
    ∃ hlt : i < l.length, (l.get ⟨i, hlt⟩).active = false := by
  induction l generalizing i with
  | nil => simp [allocateParticle] at h
  | cons p ps ih =>
    cases hp : p.active with
    | false =>
      simp only [allocateParticle, hp, Bool.false_eq_true, if_false,
        Option.some.injEq] at h
      subst h
      exact ⟨by simp, by simpa using hp⟩
    | true =>
      simp only [allocateParticle, hp, if_true, Option.map_eq_some'] at h
      rcases h with ⟨j, hj, rfl⟩
      rcases ih j hj with ⟨hlt, hget⟩
      exact ⟨by simpa using Nat.succ_lt_succ hlt, by simpa using hget⟩

lemma countP_set_true (l : List Particle) (i : ℕ) (q : Particle)
    (hlt : i < l.length) (hold : (l.get ⟨i, hlt⟩).active = false)
    (hq : q.active = true) :
    countActive (l.set i q) = countActive l + 1 ∧
    countInactive l = countInactive (l.set i q) + 1 := by
  induction l generalizing i with
  | nil => simp at hlt
  | cons p ps ih =>
    cases i with
    | zero =>
      simp only [List.get] at hold
      simp [countActive, countInactive, List.countP_cons, hq, hold]
    | succ j =>
      have hlt2 : j < ps.length := by simpa using hlt
      have hold2 : (ps.get ⟨j, hlt2⟩).active = false := by simpa using hold
      rcases ih j hlt2 hold2 with ⟨h1, h2⟩
      constructor
      · show countActive (p :: ps.set j q) = countActive (p :: ps) + 1
        simp only [countActive, List.countP_cons] at h1 ⊢
        omega
      · show countInactive (p :: ps) = countInactive (p :: ps.set j q) + 1
        simp only [countInactive, List.countP_cons] at h2 ⊢
        omega

lemma length_spawnLoop (mk : ℕ → Particle) (n : ℕ) (pool : List Particle) :
    (spawnLoop mk n pool).length = pool.length := by
  induction n generalizing pool with
  | zero => rfl
  | succ m ih =>
    simp only [spawnLoop]
    cases h : allocateParticle pool with
    | none => rfl
    | some i => rw [ih]; simp

lemma countActive_spawnLoop (mk : ℕ → Particle)
    (hmk : ∀ k, (mk k).active = true) (n : ℕ) (pool : List Particle) :
    countActive (spawnLoop mk n pool) =
      countActive pool + min n (countInactive pool) := by
  induction n generalizing pool with
  | zero => simp [spawnLoop]
  | succ m ih =>
    simp only [spawnLoop]
    cases h : allocateParticle pool with
    | none =>
      have h0 : countInactive pool = 0 :=
        (allocateParticle_eq_none_iff pool).mp h
      simp [h0]
    | some i =>
      rcases allocateParticle_eq_some pool i h with ⟨hlt, hget⟩
      rcases countP_set_true pool i (mk m) hlt hget (hmk m) with ⟨h1, h2⟩
      rw [ih, h1]
      have hpos : 1 ≤ countInactive pool := by omega
      have : countInactive (pool.set i (mk m)) = countInactive pool - 1 := by
        omega
      rw [this]
      omega

/-- C1: the active count never exceeds the pool capacity, and allocation
returns an inactive slot when one exists and the exhausted signal exactly
when every slot is active. -/
theorem c1_pool_invariant :
    NewGamePool.length = maxParticles ∧
    ∀ pool : List Particle,
      countActive pool ≤ pool.length ∧
      (allocateParticle pool = none ↔ countActive pool = pool.length) ∧
      ∀ i, allocateParticle pool = some i →
        ∃ hlt : i < pool.length, (pool.get ⟨i, hlt⟩).active = false := by
  refine ⟨by rw [NewGamePool]; exact List.length_replicate _ _,
    fun pool => ⟨countActive_le_length pool, ?_, ?_⟩⟩
  · rw [allocateParticle_eq_none_iff]
    have := length_eq_countActive_add_countInactive pool
    omega
  · intro i h
    exact allocateParticle_eq_some pool i h

/-- An active sample particle used in concrete evaluations. -/
def sampleActive : Particle := { zeroParticle with active := true }

/-- Witness for C1 on a concrete two-slot pool: allocation returns the
inactive slot 1 with its slot indeed inactive. -/
theorem c1_pool_invariant_witness :
    ∃ hlt : 1 < ([sampleActive, zeroParticle] : List Particle).length,
      (([sampleActive, zeroParticle] : List Particle).get ⟨1, hlt⟩).active = false :=
  (c1_pool_invariant.2 [sampleActive, zeroParticle]).2.2 1 (by decide)

/-- C2: an active particle satisfying the age invariant before the tick either
stays active with the invariant intact, or is deactivated, and deactivation
happens exactly on the tick on which the age reaches the lifespan (or because
the position left the out-of-bounds margin), never one tick earlier or later. -/
theorem c2_age_invariant (p : Particle) (hact : p.active = true)
    (h0 : 0 ≤ p.lifetime) (hlt : p.lifetime < p.maxLife) :
    ((tickParticle p).active = true →
      0 ≤ (tickParticle p).lifetime ∧
      (tickParticle p).lifetime < (tickParticle p).maxLife) ∧
    ((tickParticle p).active = false →
      (tickParticle p).lifetime ≥ (tickParticle p).maxLife ∨
      outOfBounds (tickParticle p) = true) ∧
    ((tickParticle p).active = false →
      (tickParticle p).lifetime ≥ (tickParticle p).maxLife →
      (tickParticle p).lifetime = (tickParticle p).maxLife) ∧
    (p.lifetime + 1 ≥ p.maxLife → (tickParticle p).active = false) ∧
    (p.lifetime + 1 < p.maxLife → outOfBounds p.update = false →
      (tickParticle p).active = true) := by
  simp only [tickParticle, Particle.update, hact, Bool.not_true, Bool.false_eq_true,
    if_false, if_true, ge_iff_le]
  split_ifs with h1 h2 h2 <;>
    refine ⟨?_, ?_, ?_, ?_, ?_⟩ <;>
      simp_all [outOfBounds] <;>
        first
        | omega
        | (intro hx1 hx2 hy1
           rcases h2 with ((hb | hb) | hb) | hb <;> linarith)

/-- Witness for C2: a concrete active particle one tick from its lifespan is
deactivated by this tick with its age equal to its lifespan exactly. -/
theorem c2_age_invariant_witness :
    (tickParticle { zeroParticle with active := true, lifetime := 4, maxLife := 5 }).active
      = false :=
  (c2_age_invariant { zeroParticle with active := true, lifetime := 4, maxLife := 5 }
    (by decide) (by decide) (by decide)).2.2.2.1 (by decide)

/-- C4: a burst of n spawn requests on a pool with F free slots activates
exactly min n F particles (the rest are silently dropped), preserves the pool
size, and spawnExplosion is the 500-request instance of that loop. -/
theorem c4_burst_truncation (M : MathLib) (x y : ℚ) (ds : ℕ → Draws)
    (n : ℕ) (pool : List Particle) :
    countActive (spawnLoop (fun k => blastParticle M x y (ds k)) n pool) =
      countActive pool + min n (countInactive pool) ∧
    (spawnLoop (fun k => blastParticle M x y (ds k)) n pool).length = pool.length ∧
    spawnExplosion M x y ds pool =
      spawnLoop (fun k => blastParticle M x y (ds k)) 500 pool := by
  refine ⟨countActive_spawnLoop _ (fun k => rfl) n pool,
    length_spawnLoop _ n pool, rfl⟩

end P0

namespace AmazingDemo

/-- Screen width constant of amazing.main.go. -/
def screenWidth : ℚ := 1280

/-- Screen height constant of amazing.main.go. -/
def screenHeight : ℚ := 720

/-- Pool capacity constant of amazing.main.go. -/
def maxParticles : ℕ := 14000

/-- Vertex-buffer capacity constant of amazing.main.go. -/
def maxVertices : ℕ := maxParticles * 4

/-- Index-buffer capacity constant of amazing.main.go. -/
def maxIndices : ℕ := maxParticles * 6

/-- Particle kind of amazing.main.go. -/
inductive PKind where
  | KindFire : PKind
  | KindEmber : PKind
deriving DecidableEq

/-- Particle record of amazing.main.go. -/
structure Particle where
  x : ℚ
  y : ℚ
  z : ℚ
  vx : ℚ
  vy : ℚ
  vz : ℚ
  lifetime : ℤ
  maxLife : ℤ
  baseScale : ℚ
  angle : ℚ
  angularVelocity : ℚ
  kind : PKind
  active : Bool
deriving DecidableEq

/-- Particle.update of amazing.main.go.  `r` is the rand.Float64 draw
consumed by the ember wobble force. -/
def Particle.update (p : Particle) (r : ℚ) : Particle :=
  if !p.active then p
  else
    let p1 := { p with lifetime := p.lifetime + 1 }
    if p1.lifetime ≥ p1.maxLife then { p1 with active := false }
    else
      let p2 := { p1 with
        x := p1.x + p1.vx
        y := p1.y + p1.vy
        z := p1.z + p1.vz
        angle := p1.angle + p1.angularVelocity }
      if p2.kind = PKind.KindFire then
        { p2 with
          vx := p2.vx * (998 / 1000)
          vy := (p2.vy - 15 / 1000) * (999 / 1000)
          vz := p2.vz * (994 / 1000) }
      else
        { p2 with
          vy := p2.vy - 1 / 100
          vx := p2.vx + (r * 2 - 1) * (2 / 100)
          vz := p2.vz * (995 / 1000) }

/-- The recycle-if-off-screen test of amazing.main.go Game.Update. -/
def outOfBounds (p : Particle) : Bool :=
  decide (p.x < -200) || decide (p.x > screenWidth + 200) ||
  decide (p.y < -300) || decide (p.y > screenHeight + 400)

/-- One particle step of amazing.main.go Game.Update: update when active,
then recycle when far off screen. -/
def tickParticle (p : Particle) (r : ℚ) : Particle :=
  if p.active then
    let q := p.update r
    if outOfBounds q then { q with active := false } else q
  else p

/-- The per-tick integrator step in the order the claim states it: advance
position by velocity, apply kind-specific forces, advance rotation, increment
age, then deactivate when the age reached the lifespan or the position left
the margin. -/
def claimTick (p : Particle) (r : ℚ) : Particle :=
  if !p.active then p
  else
    let p1 := { p with
      x := p.x + p.vx
      y := p.y + p.vy
      z := p.z + p.vz }
    let p2 :=
      if p1.kind = PKind.KindFire then
        { p1 with
          vx := p1.vx * (998 / 1000)
          vy := (p1.vy - 15 / 1000) * (999 / 1000)
          vz := p1.vz * (994 / 1000) }
      else
        { p1 with
          vy := p1.vy - 1 / 100
          vx := p1.vx + (r * 2 - 1) * (2 / 100)
          vz := p1.vz * (995 / 1000) }
    let p3 := { p2 with angle := p2.angle + p2.angularVelocity }
    let p4 := { p3 with lifetime := p3.lifetime + 1 }
    if p4.lifetime ≥ p4.maxLife ∨ outOfBounds p4 = true then
      { p4 with active := false }
    else p4

/-- The amended integrator order actually implemented: increment age first
and deactivate (with no movement this tick) when the age reached the
lifespan; otherwise advance position by velocity, apply kind-specific forces,
advance rotation, and finally deactivate when the position left the margin. -/
def amendedTick (p : Particle) (r : ℚ) : Particle :=
  if !p.active then p
  else
    let p1 := { p with lifetime := p.lifetime + 1 }
    if p1.lifetime ≥ p1.maxLife then { p1 with active := false }
    else
      let p2 := { p1 with
        x := p1.x + p1.vx
        y := p1.y + p1.vy
        z := p1.z + p1.vz }
      let p3 :=
        if p2.kind = PKind.KindFire then
          { p2 with
            vx := p2.vx * (998 / 1000)
            vy := (p2.vy - 15 / 1000) * (999 / 1000)
            vz := p2.vz * (994 / 1000) }
        else
          { p2 with
            vy := p2.vy - 1 / 100
            vx := p2.vx + (r * 2 - 1) * (2 / 100)
            vz := p2.vz * (995 / 1000) }
      let p4 := { p3 with angle := p3.angle + p3.angularVelocity }
      if outOfBounds p4 then { p4 with active := false } else p4

/-- A concrete active fire particle one tick from its lifespan, with a
nonzero velocity. -/
def cexParticle : Particle :=
  { x := 0, y := 0, z := 0, vx := 1, vy := 0, vz := 0, lifetime := 4,
    maxLife := 5, baseScale := 0, angle := 0, angularVelocity := 0,
    kind := PKind.KindFire, active := true }

/-- Counterexample to C3 as stated: on the deactivation tick the code does
not advance the position (the age check runs first), while the claimed
order advances it before deactivating. -/
theorem c3_claim_counterexample :
    tickParticle cexParticle 0 ≠ claimTick cexParticle 0 := by
  norm_num [tickParticle, claimTick, Particle.update, cexParticle, outOfBounds,
    screenWidth, screenHeight]

/-- C3 (amended): the integrator first increments age and deactivates with
no movement when the age reaches the lifespan; otherwise it advances
position, applies kind-specific forces, advances rotation, and then applies
the out-of-bounds deactivation; moreover for every particle that survives
the tick the state equals the one produced by the order as claimed. -/
theorem c3_integration_order :
    (∀ (p : Particle) (r : ℚ), tickParticle p r = amendedTick p r) ∧
    (∀ (p : Particle) (r : ℚ), (tickParticle p r).active = true →
      tickParticle p r = claimTick p r) := by
  constructor
  · intro p r
    cases hact : p.active with
    | false => simp [tickParticle, amendedTick, hact]
    | true =>
      simp only [tickParticle, amendedTick, Particle.update, hact, Bool.not_true,
        Bool.false_eq_true, if_false, if_true]
      split_ifs <;> rfl
  · intro p r
    cases hact : p.active with
    | false => simp [tickParticle, hact]
    | true =>
      simp only [tickParticle, claimTick, Particle.update, hact, Bool.not_true,
        Bool.false_eq_true, if_false, if_true]
      split_ifs <;> intro hsurv <;>
        first | rfl | ((try simp_all) <;> omega)

/-- Witness for C3 (amended): on a concrete surviving particle the
implemented order and the claimed order agree. -/
theorem c3_integration_order_witness :
    tickParticle { cexParticle with maxLife := 10 } 0 =
      claimTick { cexParticle with maxLife := 10 } 0 :=
  c3_integration_order.2 { cexParticle with maxLife := 10 } 0 (by
    norm_num [tickParticle, Particle.update, cexParticle, outOfBounds,
      screenWidth, screenHeight])

end AmazingDemo

/-- The six triangle indices emitted for the particle whose quad starts at
vertex slot `4 * k`: two triangles over its own four vertices. -/
def quadIndices (k : ℕ) : List ℕ :=
  [4 * k, 4 * k + 1, 4 * k + 2, 4 * k + 1, 4 * k + 3, 4 * k + 2]

/-- The common shape of the vertex/index batch-building loop shared by the
batched demos: per particle passing the emission test, append its four quad
vertices and six triangle indices, the base index being the running vertex
count cast to uint16 (`% 65536`). -/
def batchLoop {α : Type} (act : α → Bool) (quad : α → List Vertex) :
    List α → List Vertex → List ℕ → List Vertex × List ℕ
  | [], vs, ixs => (vs, ixs)
  | p :: ps, vs, ixs =>
    if act p then
      let v := vs.length % 65536
      batchLoop act quad ps (vs ++ quad p)
        (ixs ++ [v, (v + 1) % 65536, (v + 2) % 65536,
                 (v + 1) % 65536, (v + 3) % 65536, (v + 2) % 65536])
    else batchLoop act quad ps vs ixs

theorem batchLoop_spec {α : Type} (act : α → Bool) (quad : α → List Vertex)
    (hq : ∀ p, (quad p).length = 4) :
    ∀ (ps : List α) (vs : List Vertex) (ixs : List ℕ) (a : ℕ),
      vs.length = 4 * a → 4 * (a + ps.countP act) ≤ 65536 →
      (batchLoop act quad ps vs ixs).1.length = 4 * (a + ps.countP act) ∧
      (batchLoop act quad ps vs ixs).2 =
        ixs ++ (List.range (ps.countP act)).flatMap (fun k => quadIndices (a + k)) := by
  intro ps
  induction ps with
  | nil =>
    intro vs ixs a hlen hbound
    simp [batchLoop, hlen]
  | cons p ps ih =>
    intro vs ixs a hlen hbound
    cases hpa : act p with
    | false =>
      have hcount : (p :: ps).countP act = ps.countP act := by
        simp [List.countP_cons, hpa]
      rw [hcount] at hbound ⊢
      simpa [batchLoop, hpa] using ih vs ixs a hlen hbound
    | true =>
      have hcount : (p :: ps).countP act = ps.countP act + 1 := by
        simp [List.countP_cons, hpa]
      rw [hcount] at hbound ⊢
      have hlt : 4 * a + 4 ≤ 65536 := by omega
      have hmod : ∀ j, j < 4 → (4 * a % 65536 + j) % 65536 = 4 * a + j := by
        intro j hj
        have h1 : 4 * a % 65536 = 4 * a := Nat.mod_eq_of_lt (by omega)
        rw [h1]
        exact Nat.mod_eq_of_lt (by omega)
      have hmod0 : 4 * a % 65536 = 4 * a := Nat.mod_eq_of_lt (by omega)
      have hlen2 : (vs ++ quad p).length = 4 * (a + 1) := by
        simp [List.length_append, hlen, hq p]
        omega
      have hbound2 : 4 * ((a + 1) + ps.countP act) ≤ 65536 := by omega
      have hrec := ih (vs ++ quad p)
        (ixs ++ [vs.length % 65536, (vs.length % 65536 + 1) % 65536,
                 (vs.length % 65536 + 2) % 65536, (vs.length % 65536 + 1) % 65536,
                 (vs.length % 65536 + 3) % 65536, (vs.length % 65536 + 2) % 65536])
        (a + 1) hlen2 hbound2
      simp only [batchLoop, hpa, if_true]
      refine ⟨by rw [hrec.1]; omega, ?_⟩
      rw [hrec.2, hlen, hmod0]
      have hp1 : (4 * a + 1) % 65536 = 4 * a + 1 := Nat.mod_eq_of_lt (by omega)
      have hp2 : (4 * a + 2) % 65536 = 4 * a + 2 := Nat.mod_eq_of_lt (by omega)
      have hp3 : (4 * a + 3) % 65536 = 4 * a + 3 := Nat.mod_eq_of_lt (by omega)
      rw [hp1, hp2, hp3, List.append_assoc]
      congr 1
      have hfun : (fun k : ℕ => quadIndices (a + Nat.succ k)) =
          (fun k : ℕ => quadIndices ((a + 1) + k)) := by
        funext k
        congr 1
        omega
      rw [List.range_succ_eq_map, List.flatMap_cons, List.flatMap_map, hfun]
      simp [quadIndices]

namespace SmokeDemo

/-- Screen width constant of smoke.main.go. -/
def screenWidth : ℚ := 640

/-- Screen height constant of smoke.main.go. -/
def screenHeight : ℚ := 480

/-- Pool capacity constant of smoke.main.go. -/
def maxParticles : ℕ := 8000

/-- Particle record of smoke.main.go.  The opaque texture handle field
(img, the same loaded image for every particle) is not modelled. -/
structure Particle where
  x : ℚ
  y : ℚ
  vx : ℚ
  vy : ℚ
  lifetime : ℤ
  maxLife : ℤ
  baseScale : ℚ
  angle : ℚ
  angularVelocity : ℚ
  baseAlpha : ℚ
  color : RGBA
  active : Bool
deriving DecidableEq

/-- The life progress rate computed in smoke.main.go Game.Draw. -/
def lifeRate (p : Particle) : ℚ := (p.lifetime : ℚ) / (p.maxLife : ℚ)

/-- The fade-in/fade-out alpha envelope of smoke.main.go Game.Draw,
multiplied by the particle base alpha. -/
def pAlpha (p : Particle) : ℚ :=
  (if lifeRate p < 2 / 10 then lifeRate p / (2 / 10)
   else if lifeRate p > 8 / 10 then (1 - lifeRate p) / (2 / 10)
   else 1) * p.baseAlpha

/-- The four quad vertices emitted for one active particle by smoke.main.go
Game.Draw: center pivot, rotate, scale, translate; corners top-left,
bottom-left, top-right, bottom-right with matching texture coordinates and
the premultiplied color. -/
def quadVerts (W H : ℚ) (M : MathLib) (p : Particle) : List Vertex :=
  let scale := p.baseScale * (8 / 10 + 5 / 10 * lifeRate p)
  let alpha := pAlpha p
  let cr := (p.color.R : ℚ) / 255 * alpha
  let cg := (p.color.G : ℚ) / 255 * alpha
  let cb := (p.color.B : ℚ) / 255 * alpha
  let geo := ((((GeoM.start.translate (-(W / 2)) (-(H / 2))).rotate M
    p.angle).scaleBy scale scale).translate p.x p.y)
  let c1 := geo.apply 0 0
  let c2 := geo.apply 0 H
  let c3 := geo.apply W 0
  let c4 := geo.apply W H
  [⟨c1.1, c1.2, 0, 0, cr, cg, cb, alpha⟩,
   ⟨c2.1, c2.2, 0, H, cr, cg, cb, alpha⟩,
   ⟨c3.1, c3.2, W, 0, cr, cg, cb, alpha⟩,
   ⟨c4.1, c4.2, W, H, cr, cg, cb, alpha⟩]

/-- Game state of smoke.main.go: the particle pool and the reused
vertex/index buffers. -/
structure Game where
  particles : List Particle
  emitterX : ℚ
  emitterY : ℚ
  vertices : List Vertex
  indices : List ℕ

/-- Number of active particles. -/
def countActive (ps : List Particle) : ℕ := ps.countP (fun p => p.active)

/-- The batch produced from a particle list alone. -/
def drawBatch (W H : ℚ) (M : MathLib) (ps : List Particle) :
    List Vertex × List ℕ :=
  batchLoop (fun p => p.active) (quadVerts W H M) ps [] []

/-- The batch-building part of smoke.main.go Game.Draw: the buffers are
reset with a length-zero reslice and refilled from the active particles. -/
def GameDraw (W H : ℚ) (M : MathLib) (g : Game) : List Vertex × List ℕ :=
  batchLoop (fun p => p.active) (quadVerts W H M) g.particles
    (g.vertices.take 0) (g.indices.take 0)

/-- C8: the buffers are rebuilt from empty each frame, the built batch is a
function of the current particle list only, it holds exactly four vertices
and six indices per active particle, and the six indices of the k-th emitted
particle all point into that particle's own four vertex slots. -/
theorem c8_batch_rebuild (W H : ℚ) (M : MathLib) (g : Game)
    (hc : countActive g.particles ≤ maxParticles) :
    (∀ g2 : Game, g2.particles = g.particles →
      GameDraw W H M g2 = GameDraw W H M g) ∧
    GameDraw W H M g = drawBatch W H M g.particles ∧
    (GameDraw W H M g).1.length = 4 * countActive g.particles ∧
    (GameDraw W H M g).2 =
      (List.range (countActive g.particles)).flatMap quadIndices ∧
    ∀ k, k < countActive g.particles →
      ∀ i ∈ quadIndices k, 4 * k ≤ i ∧ i < 4 * k + 4 := by
  have hq : ∀ p, (quadVerts W H M p).length = 4 := fun p => rfl
  have hc8 : countActive g.particles ≤ 8000 := hc
  simp only [countActive] at hc8
  have hbound : 4 * (0 + List.countP (fun p => p.active) g.particles) ≤ 65536 := by
    omega
  have hspec := batchLoop_spec (fun p => p.active) (quadVerts W H M) hq
    g.particles [] [] 0 rfl hbound
  refine ⟨fun g2 h2 => by simp [GameDraw, h2], rfl, ?_, ?_, ?_⟩
  · show (drawBatch W H M g.particles).1.length = 4 * countActive g.particles
    simp only [drawBatch, countActive]
    rw [hspec.1]
    omega
  · show (drawBatch W H M g.particles).2 =
      (List.range (countActive g.particles)).flatMap quadIndices
    simp only [drawBatch, countActive]
    rw [hspec.2]
    simp
  · intro k _ i hi
    simp only [quadIndices, List.mem_cons, List.not_mem_nil, or_false] at hi
    rcases hi with rfl | rfl | rfl | rfl | rfl | rfl <;> omega

end SmokeDemo

namespace AmazingDemo

/-- Width of the procedural fire texture of amazing.main.go (36 pixels). -/
def fireImageW : ℚ := 36

/-- Height of the procedural fire texture of amazing.main.go (36 pixels). -/
def fireImageH : ℚ := 36

/-- depthColor of amazing.main.go: blue (far) through purple to red (near)
with a slow sinusoidal time hue shift, clamped to the unit interval. -/
def depthColor (M : MathLib) (z t : ℚ) : ℚ × ℚ × ℚ :=
  let nt0 := (z + 2) / 4
  let nt1 := if nt0 < 0 then 0 else nt0
  let nt := if nt1 > 1 then 1 else nt1
  let shift := (15 / 100) * M.sin (t * (8 / 10))
  let tt0 := nt + shift
  let tt1 := if tt0 < 0 then 0 else tt0
  let tt := if tt1 > 1 then 1 else tt1
  let s := M.sin (tt * M.pi / 2)
  let r := s
  let g := (1 - tt) * (25 / 100)
  let b := 1 - s
  let r2 := if tt > 6 / 10 then min 1 (r * (115 / 100)) else r
  (r2, g, b)

/-- The four quad vertices emitted for one active particle by
amazing.main.go Game.Draw: life/depth fades, kind adjustments, the
center-pivot affine transform, and the depth-based premultiplied color. -/
def quadVerts (M : MathLib) (depthOffset now : ℚ) (p : Particle) : List Vertex :=
  let rate := (p.lifetime : ℚ) / (p.maxLife : ℚ)
  let z := p.z + depthOffset
  let alpha0 := (1 - M.pow rate (14 / 10)) * (2 / 10 + (1 - |z|) * (85 / 100))
  let alpha1 := if alpha0 < 0 then 0 else alpha0
  let depthScale0 := 1 / (1 + z * (6 / 10))
  let depthScale := if depthScale0 < 3 / 10 then 3 / 10 else depthScale0
  let scale0 := p.baseScale * (1 + (8 / 10) * rate) * depthScale
  let rgb := depthColor M z now
  let alpha := if p.kind = PKind.KindEmber then alpha1 * (7 / 10)
    else min 1 (alpha1 * (115 / 100))
  let scale := if p.kind = PKind.KindEmber then scale0 * (6 / 10) else scale0
  let geo := ((((GeoM.start.translate (-(fireImageW / 2)) (-(fireImageH / 2))).rotate M
    p.angle).scaleBy scale scale).translate p.x p.y)
  let c1 := geo.apply 0 0
  let c2 := geo.apply 0 fireImageH
  let c3 := geo.apply fireImageW 0
  let c4 := geo.apply fireImageW fireImageH
  [⟨c1.1, c1.2, 0, 0, rgb.1 * alpha, rgb.2.1 * alpha, rgb.2.2 * alpha, alpha⟩,
   ⟨c2.1, c2.2, 0, fireImageH, rgb.1 * alpha, rgb.2.1 * alpha, rgb.2.2 * alpha, alpha⟩,
   ⟨c3.1, c3.2, fireImageW, 0, rgb.1 * alpha, rgb.2.1 * alpha, rgb.2.2 * alpha, alpha⟩,
   ⟨c4.1, c4.2, fireImageW, fireImageH, rgb.1 * alpha, rgb.2.1 * alpha, rgb.2.2 * alpha, alpha⟩]

/-- Number of active particles. -/
def countActive (ps : List Particle) : ℕ := ps.countP (fun p => p.active)

/-- The batch-building part of amazing.main.go Game.Draw: the buffers are
rebuilt from empty out of the active particles. -/
def drawBatch (M : MathLib) (depthOffset now : ℚ) (ps : List Particle) :
    List Vertex × List ℕ :=
  batchLoop (fun p => p.active) (quadVerts M depthOffset now) ps [] []

/-- C10: every configured capacity keeps 4 times maxParticles at or below
65535 (the largest, amazing.main.go, gives 14000 times 4 = 56000), so the
vertex count fits, the uint16 index cast never wraps, and every emitted
index equals the intended vertex position. -/
theorem c10_uint16_no_overflow (M : MathLib) (depthOffset now : ℚ)
    (ps : List Particle) (hc : countActive ps ≤ maxParticles) :
    4 * P0.maxParticles ≤ 65535 ∧
    4 * SmokeDemo.maxParticles ≤ 65535 ∧
    4 * maxParticles ≤ 65535 ∧
    maxVertices = 56000 ∧
    (drawBatch M depthOffset now ps).1.length = 4 * countActive ps ∧
    (drawBatch M depthOffset now ps).1.length ≤ 65535 ∧
    (drawBatch M depthOffset now ps).2 =
      (List.range (countActive ps)).flatMap quadIndices ∧
    ∀ i ∈ (drawBatch M depthOffset now ps).2, i < 65536 := by
  have hq : ∀ p, (quadVerts M depthOffset now p).length = 4 := fun p => rfl
  have hc14 : countActive ps ≤ 14000 := hc
  simp only [countActive] at hc14
  have hbound : 4 * (0 + List.countP (fun p => p.active) ps) ≤ 65536 := by omega
  have hspec := batchLoop_spec (fun p => p.active) (quadVerts M depthOffset now)
    hq ps [] [] 0 rfl hbound
  have hlen : (drawBatch M depthOffset now ps).1.length = 4 * countActive ps := by
    simp only [drawBatch, countActive]
    rw [hspec.1]
    omega
  have hidx : (drawBatch M depthOffset now ps).2 =
      (List.range (countActive ps)).flatMap quadIndices := by
    simp only [drawBatch, countActive]
    rw [hspec.2]
    simp
  refine ⟨by decide, by decide, by decide, by decide, hlen, ?_, hidx, ?_⟩
  · rw [hlen]
    simp only [countActive]
    omega
  · intro i hi
    rw [hidx] at hi
    simp only [List.mem_flatMap, List.mem_range] at hi
    rcases hi with ⟨k, hk, hik⟩
    simp only [countActive] at hk
    simp only [quadIndices, List.mem_cons, List.not_mem_nil, or_false] at hik
    rcases hik with rfl | rfl | rfl | rfl | rfl | rfl <;> omega

/-- Witness for C10: on a one-particle list the index buffer is exactly the
six in-range indices of quad zero. -/
theorem c10_uint16_no_overflow_witness :
    (drawBatch M0 0 0 [{ cexParticle with maxLife := 10 }]).2 = [0, 1, 2, 1, 3, 2] := by
  have h := (c10_uint16_no_overflow M0 0 0 [{ cexParticle with maxLife := 10 }]
    (by decide)).2.2.2.2.2.2.1
  rw [h]
  decide

end AmazingDemo

namespace SmokeDemo

/-- A minimal active particle of smoke.main.go used for evaluation. -/
def sampleParticle : Particle :=
  { x := 0, y := 0, vx := 0, vy := 0, lifetime := 0, maxLife := 1,
    baseScale := 0, angle := 0, angularVelocity := 0, baseAlpha := 0,
    color := ⟨0, 0, 0, 0⟩, active := true }

/-- A one-particle game state with nonempty stale buffers. -/
def sampleGame : Game :=
  { particles := [sampleParticle], emitterX := 0, emitterY := 0,
    vertices := [⟨1, 1, 1, 1, 1, 1, 1, 1⟩], indices := [7] }

/-- Witness for C8: on a one-particle game with stale nonempty buffers the
rebuilt index buffer is exactly the six indices of quad zero. -/
theorem c8_batch_rebuild_witness :
    (GameDraw 32 32 M0 sampleGame).2 = [0, 1, 2, 1, 3, 2] := by
  have h := (c8_batch_rebuild 32 32 M0 sampleGame (by decide)).2.2.2.1
  rw [h]
  decide

end SmokeDemo

namespace Bubbles

/-- Screen width constant of bubbles.main.go. -/
def screenWidth : ℚ := 1024

/-- Screen height constant of bubbles.main.go. -/
def screenHeight : ℚ := 768

/-- Particle cap constant of bubbles.main.go. -/
def maxParticles : ℕ := 1200

/-- Perspective strength constant of bubbles.main.go. -/
def focalLength : ℚ := 450

/-- Particle record of bubbles.main.go. -/
structure Particle where
  x : ℚ
  y : ℚ
  z : ℚ
  vx : ℚ
  vy : ℚ
  vz : ℚ
  life : ℤ
  maxLife : ℤ
  baseSize : ℚ
  color : RGBA
deriving DecidableEq

/-- The five results of bubbles.main.go Particle.Project. -/
structure Projection where
  sx : ℚ
  sy : ℚ
  scale : ℚ
  depth : ℚ
  visible : Bool
deriving DecidableEq

/-- The lateral x component after the yaw rotation in Particle.Project. -/
def rotX1 (M : MathLib) (p : Particle) (yaw : ℚ) : ℚ :=
  p.x * M.cos yaw + p.z * M.sin yaw

/-- The depth component after the yaw rotation in Particle.Project. -/
def rotZ1 (M : MathLib) (p : Particle) (yaw : ℚ) : ℚ :=
  -p.x * M.sin yaw + p.z * M.cos yaw

/-- The lateral y component after the pitch rotation in Particle.Project. -/
def rotY1 (M : MathLib) (p : Particle) (yaw pitch : ℚ) : ℚ :=
  p.y * M.cos pitch - rotZ1 M p yaw * M.sin pitch

/-- The camera-relative depth of Particle.Project: the pitch-rotated depth
component plus the camera offset 600. -/
def projDepth (M : MathLib) (p : Particle) (yaw pitch : ℚ) : ℚ :=
  p.y * M.sin pitch + rotZ1 M p yaw * M.cos pitch + 600

/-- Particle.Project of bubbles.main.go: behind or at the near-clip depth 10
the particle is marked not visible; otherwise screen coordinates, the
perspective scale focalLength divided by depth, and the depth are returned. -/
def Particle.Project (p : Particle) (M : MathLib) (yaw pitch : ℚ) : Projection :=
  let z2 := projDepth M p yaw pitch
  if z2 ≤ 10 then ⟨0, 0, 0, z2, false⟩
  else
    let f := focalLength / z2
    ⟨rotX1 M p yaw * f + screenWidth / 2,
     rotY1 M p yaw pitch * f + screenHeight / 2, f, z2, true⟩

/-- C6: a particle is invisible exactly when its camera-relative depth is at
or below the near-clip threshold 10; any particle strictly beyond it is
visible with positive finite scale focalLength divided by depth and screen
coordinates rotated-lateral times scale plus the screen-center offset. -/
theorem c6_near_clip_projection (M : MathLib) (p : Particle) (yaw pitch : ℚ) :
    ((p.Project M yaw pitch).visible = false ↔ projDepth M p yaw pitch ≤ 10) ∧
    (p.Project M yaw pitch).depth = projDepth M p yaw pitch ∧
    (10 < projDepth M p yaw pitch →
      (p.Project M yaw pitch).visible = true ∧
      (p.Project M yaw pitch).scale = focalLength / projDepth M p yaw pitch ∧
      0 < (p.Project M yaw pitch).scale ∧
      (p.Project M yaw pitch).sx =
        rotX1 M p yaw * (focalLength / projDepth M p yaw pitch) + screenWidth / 2 ∧
      (p.Project M yaw pitch).sy =
        rotY1 M p yaw pitch * (focalLength / projDepth M p yaw pitch) +
          screenHeight / 2) := by
  by_cases h : projDepth M p yaw pitch ≤ 10
  · refine ⟨by simp [Particle.Project, h], by simp [Particle.Project, h], ?_⟩
    intro hgt
    exact absurd h (not_le.mpr hgt)
  · have hpos : 0 < projDepth M p yaw pitch := by
      push_neg at h
      linarith
    refine ⟨by simp [Particle.Project, h], by simp [Particle.Project, h], fun _ => ?_⟩
    refine ⟨by simp [Particle.Project, h], by simp [Particle.Project, h], ?_,
      by simp [Particle.Project, h], by simp [Particle.Project, h]⟩
    have : (p.Project M yaw pitch).scale = focalLength / projDepth M p yaw pitch := by
      simp [Particle.Project, h]
    rw [this, focalLength]
    exact div_pos (by norm_num) hpos

/-- A particle whose camera-relative depth is exactly the near-clip value. -/
def pAtClip : Particle :=
  { x := 0, y := 0, z := -590, vx := 0, vy := 0, vz := 0, life := 1,
    maxLife := 1, baseSize := 1, color := ⟨0, 0, 0, 0⟩ }

/-- The same particle one unit closer than the near clip. -/
def pNear : Particle := { pAtClip with z := -589 }

/-- Witness for C6: at the clip depth (10) the particle is not visible; one
unit closer (depth 11) it is visible with finite scale 450/11. -/
theorem c6_near_clip_projection_witness :
    (pAtClip.Project M0 0 0).visible = false ∧
    (pNear.Project M0 0 0).visible = true ∧
    (pNear.Project M0 0 0).scale = 450 / 11 := by
  have hd1 : projDepth M0 pAtClip 0 0 = 10 := by
    norm_num [projDepth, rotZ1, M0, pAtClip]
  have hd2 : projDepth M0 pNear 0 0 = 11 := by
    norm_num [projDepth, rotZ1, M0, pNear, pAtClip]
  have h1 := (c6_near_clip_projection M0 pAtClip 0 0).1
  have h2 := (c6_near_clip_projection M0 pNear 0 0).2.2 (by rw [hd2]; norm_num)
  refine ⟨h1.mpr (by rw [hd1]), h2.1, ?_⟩
  rw [h2.2.1, hd2, focalLength]

/-- The raw depth fade of bubbles.main.go Game.Draw and its clamp to the
configured floor 0.2. -/
def depthFade (depth : ℚ) : ℚ :=
  let df := 1 - (depth - 200) / 1200
  if df < 2 / 10 then 2 / 10 else df

/-- The remaining-lifetime ratio of bubbles.main.go Game.Draw. -/
def lifeFrac (p : Particle) : ℚ := (p.life : ℚ) / (p.maxLife : ℚ)

/-- The combined per-particle fade multiplier of bubbles.main.go Game.Draw:
lifetime ratio times clamped depth fade. -/
def fadeMultiplier (p : Particle) (depth : ℚ) : ℚ :=
  lifeFrac p * depthFade depth

/-- One collected draw item of bubbles.main.go Game.Draw. -/
structure DrawItem where
  x : ℚ
  y : ℚ
  size : ℚ
  depth : ℚ
  alpha : ℚ
  col : RGBA
deriving DecidableEq

/-- The projection and collection loop of bubbles.main.go Game.Draw:
invisible particles are skipped, visible ones yield a draw item carrying the
projected position, size, depth and the fade multiplier. -/
def buildItems (M : MathLib) (yaw pitch : ℚ) : List Particle → List DrawItem
  | [] => []
  | p :: ps =>
    let pr := p.Project M yaw pitch
    if pr.visible then
      { x := pr.sx, y := pr.sy, size := p.baseSize * pr.scale * 3,
        depth := pr.depth, alpha := fadeMultiplier p pr.depth, col := p.color } ::
        buildItems M yaw pitch ps
    else buildItems M yaw pitch ps

/-- A visible particle with almost-exhausted lifetime far from the camera. -/
def pFar : Particle :=
  { x := 0, y := 0, z := 800, vx := 0, vy := 0, vz := 0, life := 1,
    maxLife := 100, baseSize := 1, color := ⟨0, 0, 0, 0⟩ }

/-- Counterexample to C7 as stated: a visible particle whose combined fade
multiplier is 1/500, far below the configured floor 1/5, because the floor
is applied only to the depth-based factor and the lifetime ratio multiplies
it afterwards. -/
theorem c7_floor_counterexample :
    (buildItems M0 0 0 [pFar]).map DrawItem.alpha = [1 / 500] ∧
    (1 / 500 : ℚ) < 2 / 10 := by
  constructor
  · norm_num [buildItems, Particle.Project, projDepth, rotZ1, rotX1, rotY1, M0,
      pFar, fadeMultiplier, lifeFrac, depthFade, focalLength, screenWidth,
      screenHeight]
  · norm_num

/-- C7 (amended): the depth-based fade factor is clamped below at the floor
0.2; the combined fade multiplier is the lifetime ratio times that clamped
factor, hence bounded below by lifetime-ratio times the floor, and it
respects the floor itself whenever the particle is at full lifetime. -/
theorem c7_floor_amended (p : Particle) (d : ℚ)
    (hl : 0 ≤ p.life) (_hm : p.life ≤ p.maxLife) (hpos : 0 < p.maxLife) :
    2 / 10 ≤ depthFade d ∧
    fadeMultiplier p d = lifeFrac p * depthFade d ∧
    lifeFrac p * (2 / 10) ≤ fadeMultiplier p d ∧
    (p.life = p.maxLife → 2 / 10 ≤ fadeMultiplier p d) := by
  have hdf : 2 / 10 ≤ depthFade d := by
    unfold depthFade
    dsimp only
    split_ifs with h
    · norm_num
    · linarith
  have hlr : 0 ≤ lifeFrac p := by
    unfold lifeFrac
    apply div_nonneg
    · exact_mod_cast hl
    · exact_mod_cast le_of_lt hpos
  refine ⟨hdf, rfl, ?_, ?_⟩
  · unfold fadeMultiplier
    exact mul_le_mul_of_nonneg_left hdf hlr
  · intro he
    unfold fadeMultiplier lifeFrac
    rw [he]
    have hne : (p.maxLife : ℚ) ≠ 0 := by
      exact_mod_cast ne_of_gt hpos
    rw [div_self hne, one_mul]
    exact hdf

/-- Witness for C7 (amended): a full-lifetime particle at the far depth 1400
keeps its fade multiplier at the floor 0.2. -/
theorem c7_floor_amended_witness :
    (2 / 10 : ℚ) ≤ fadeMultiplier { pFar with life := 100 } 1400 :=
  (c7_floor_amended { pFar with life := 100 } 1400 (by decide) (by decide)
    (by decide)).2.2.2 (by decide)

instance decDepthGE : DecidableRel (fun a b : DrawItem => b.depth ≤ a.depth) :=
  fun a b => inferInstanceAs (Decidable (b.depth ≤ a.depth))

/-- The depth sort of bubbles.main.go Game.Draw (sort.Slice with the
farther-first comparison), modelled by a sort satisfying the same ordering
contract. -/
def sortItems (l : List DrawItem) : List DrawItem :=
  List.insertionSort (fun a b => b.depth ≤ a.depth) l

/-- The ordered draw list of one frame of bubbles.main.go Game.Draw. -/
def drawFrame (M : MathLib) (yaw pitch : ℚ) (ps : List Particle) :
    List DrawItem :=
  sortItems (buildItems M yaw pitch ps)

/-- C5: in the composed frame, any item emitted before another has depth at
least as large (farthest first, painter's algorithm), and the ordered list
is a permutation of the collected visible items. -/
theorem c5_depth_order (M : MathLib) (yaw pitch : ℚ) (ps : List Particle) :
    List.Pairwise (fun a b : DrawItem => b.depth ≤ a.depth)
      (drawFrame M yaw pitch ps) ∧
    (drawFrame M yaw pitch ps).Perm (buildItems M yaw pitch ps) := by
  constructor
  · haveI ht : IsTotal DrawItem (fun a b => b.depth ≤ a.depth) :=
      ⟨fun a b => le_total b.depth a.depth⟩
    haveI htr : IsTrans DrawItem (fun a b => b.depth ≤ a.depth) :=
      ⟨fun a b c hab hbc => le_trans hbc hab⟩
    exact List.sorted_insertionSort _ _
  · exact List.perm_insertionSort _ _

end Bubbles

namespace Kinetic

/-- 2D vector of the ball-pit demo (second program of part_001), over the
reals since its length passes through a square root. -/
structure Vector where
  X : ℝ
  Y : ℝ

/-- Vector.LengthSq of the ball-pit demo. -/
noncomputable def Vector.LengthSq (v : Vector) : ℝ := v.X * v.X + v.Y * v.Y

/-- Vector.Length of the ball-pit demo. -/
noncomputable def Vector.Length (v : Vector) : ℝ := Real.sqrt v.LengthSq

/-- Vector.Normalized of the ball-pit demo: the zero value on zero length,
otherwise the vector divided by its length. -/
noncomputable def Vector.Normalized (v : Vector) : Vector :=
  if v.Length = 0 then ⟨0, 0⟩ else ⟨v.X / v.Length, v.Y / v.Length⟩

/-- C9: normalizing the zero vector yields the zero vector, and every
nonzero vector normalizes to itself divided by its positive length, so the
operation is total on the particle-state domain. -/
theorem c9_normalize_total :
    Vector.Normalized ⟨0, 0⟩ = ⟨0, 0⟩ ∧
    ∀ v : Vector, ¬(v.X = 0 ∧ v.Y = 0) →
      0 < v.Length ∧ v.Normalized = ⟨v.X / v.Length, v.Y / v.Length⟩ := by
  constructor
  · have h0 : (Vector.mk 0 0).Length = 0 := by
      simp [Vector.Length, Vector.LengthSq]
    simp [Vector.Normalized, h0]
  · intro v hv
    have hsq : 0 < v.LengthSq := by
      unfold Vector.LengthSq
      rcases not_and_or.mp hv with hx | hy
      · nlinarith [mul_self_pos.mpr hx, mul_self_nonneg v.Y]
      · nlinarith [mul_self_pos.mpr hy, mul_self_nonneg v.X]
    have hlen : 0 < v.Length := by
      unfold Vector.Length
      exact Real.sqrt_pos.mpr hsq
    refine ⟨hlen, ?_⟩
    unfold Vector.Normalized
    rw [if_neg (ne_of_gt hlen)]

/-- Witness for C9: the vector (3, 4) has length 5 and normalizes to
(3/5, 4/5). -/
theorem c9_normalize_total_witness :
    Vector.Normalized ⟨3, 4⟩ = ⟨3 / 5, 4 / 5⟩ := by
  have h := c9_normalize_total.2 ⟨3, 4⟩ (by norm_num)
  have hlen : (Vector.mk (3 : ℝ) 4).Length = 5 := by
    unfold Vector.Length Vector.LengthSq
    rw [show (Vector.mk (3 : ℝ) 4).X * (Vector.mk (3 : ℝ) 4).X +
      (Vector.mk (3 : ℝ) 4).Y * (Vector.mk (3 : ℝ) 4).Y = 5 ^ 2 by norm_num]
    exact Real.sqrt_sq (by norm_num)
  rw [h.2, hlen]

end Kinetic
